import Mathlib

/-!
# BookAlchemy catalog core: a shallow embedding

This file embeds the catalog core of the BookAlchemy repository
(`app.py`, `data_models.py`) in Lean 4 and proves properties of it.

Python strings are modelled as `List Char` (`PyStr`); parsed JSON values as
the inductive `Json`, where `Json.null` also stands for the Python value
`None` (which is what `json` parsing produces for JSON `null`, and what
`dict.get` returns for a missing key).  Exceptions that can escape a
function are modelled with `Except`.  The network is an oracle mapping each
request the resolver can issue to an arbitrary behaviour.

The web layer (Flask routing, templates, flash messages) is glue and is not
modelled; per the specification it delivers already-extracted form/query
string fields to the core operations.
-/

/-- Python strings are modelled as lists of characters. -/
abbrev PyStr := List Char

/-- The characters removed by Python `str.strip()` with no arguments
(ASCII whitespace; exotic Unicode space characters are not modelled, no
result below depends on them). -/
def isPySpace (c : Char) : Bool :=
  c = ' ' || c = '\t' || c = '\n' || c = '\r' || c = '\x0b' || c = '\x0c'

/-- Python `s.strip()`: drop leading and trailing whitespace. -/
def pyStrip (s : PyStr) : PyStr :=
  ((s.dropWhile isPySpace).reverse.dropWhile isPySpace).reverse

/-- Python `s.replace(c, "")` for a one-character pattern `c`: every
occurrence is removed, which for a single character is a filter. -/
def pyReplaceAllChar (c : Char) (s : PyStr) : PyStr :=
  s.filter (fun d => d ≠ c)

/-- Python `s.lower()` (ASCII; `Char.toLower` matches it on ASCII input). -/
def pyLower (s : PyStr) : PyStr := s.map Char.toLower

/-- `normalize_isbn` from `app.py` (lines 52-56):
`(isbn or "").replace("-", "").replace(" ", "").strip()`.
The argument is typed `str`, so `isbn or ""` maps the empty string to the
empty string and is the identity on strings. -/
def normalize_isbn (isbn : PyStr) : PyStr :=
  pyStrip (pyReplaceAllChar ' ' (pyReplaceAllChar '-' isbn))

/-- Parsed JSON as held by the Python program.  `null` is Python `None`:
this is both what JSON `null` parses to and what `dict.get` returns for an
absent key.  JSON numbers are modelled as integers (no result below
depends on fractional values). -/
inductive Json where
  | null : Json
  | bool (b : Bool) : Json
  | num (n : Int) : Json
  | str (s : PyStr) : Json
  | arr (elems : List Json) : Json
  | obj (fields : List (PyStr × Json)) : Json

/-- Python truthiness of a parsed-JSON value (`None`, `False`, `0`, `""`,
`[]` and an empty dict are falsy). -/
def Json.truthy : Json → Bool
  | .null => false
  | .bool b => b
  | .num n => n != 0
  | .str s => !s.isEmpty
  | .arr xs => !xs.isEmpty
  | .obj kvs => !kvs.isEmpty

/-- Python `d.get(k)` on a dict: the value at `k`, or `None` when absent. -/
def dictGet (kvs : List (PyStr × Json)) (k : PyStr) : Json :=
  match kvs.find? (fun p => p.1 = k) with
  | some p => p.2
  | none => .null

/-- Python `k in d` on a dict. -/
def dictHasKey (kvs : List (PyStr × Json)) (k : PyStr) : Bool :=
  kvs.any (fun p => p.1 = k)

/-- The Python exceptions the embedded code can raise. -/
inductive PyExn where
  | attributeError : PyExn
deriving DecidableEq, Repr

/-- `obj.get(k)` on an arbitrary Python value: only dicts have a `get`
attribute; on any other parsed-JSON value the attribute access raises
`AttributeError`. -/
def Json.pyGet : Json → PyStr → Except PyExn Json
  | .obj kvs, k => .ok (dictGet kvs k)
  | _, _ => .error .attributeError

/-- `extract_summary` from `app.py` (lines 58-81).  The function body reads
`data.get("description")` and then branches on `isinstance`:

* a string description is stripped and returned when non-empty;
* a dict description yields `(desc.get("value") or "").strip()` — note that
  `.strip()` raises `AttributeError` when `desc.get("value")` is truthy but
  not a string;
* any other shape yields `None`.

Calling it on a non-dict (the parameter is only annotated `dict`, the
caller can pass any parsed JSON) raises `AttributeError` at `data.get`. -/
def extract_summary (data : Json) : Except PyExn (Option PyStr) :=
  match data with
  | .obj kvs =>
    match dictGet kvs "description".toList with
    | .str s =>
      let d := pyStrip s
      .ok (if d = [] then none else some d)
    | .obj descKvs =>
      match (if (dictGet descKvs "value".toList).truthy
             then dictGet descKvs "value".toList
             else .str []) with
      | .str v =>
        let d := pyStrip v
        .ok (if d = [] then none else some d)
      | _ => .error .attributeError
    | _ => .ok none
  | _ => .error .attributeError

/-- The two request shapes `fetch_summary_by_isbn` can issue.  The code
builds URL strings — `https://openlibrary.org/isbn/<isbn>.json` for the
edition stage and `https://openlibrary.org<str(work_key)>.json` for the
work stage; requests are modelled keyed by endpoint and identifier (the
work key is carried verbatim: Python renders it with `str()` inside an
f-string, and the rendering only matters as a lookup key into the network
behaviour). -/
inductive Req where
  | edition (isbn : PyStr) : Req
  | work (key : Json) : Req

/-- The body of an HTTP response, as seen through `r.json()`: either it
parses to a JSON value or `r.json()` raises `ValueError`. -/
inductive BodyResult where
  | junk : BodyResult
  | json (j : Json) : BodyResult

/-- One observable behaviour of `SESSION.get(url, timeout=8)` followed by
`.json()`: the request itself may raise `requests.RequestException`
(connection error, timeout), or return a status code and a body. -/
inductive NetResult where
  | exn : NetResult
  | resp (status : Nat) (body : BodyResult) : NetResult

/-- A network behaviour: what each request the resolver can issue does. -/
def Net := Req → NetResult

/-- Python truthiness of `str | None` (`if summary:`). -/
def optStrTruthy : Option PyStr → Bool
  | none => false
  | some s => !s.isEmpty

/-- `fetch_summary_by_isbn` from `app.py` (lines 83-125), parametrised by
the network behaviour `net`.

1. normalize the ISBN; empty → `None`;
2. edition stage: request failure, non-200 status or unparseable body →
   `None`; otherwise extract a summary from the edition JSON and return it
   if truthy;
3. work fallback: `works = edition.get("works") or []`; when `works` is a
   truthy list whose first element is a dict with a `"key"` entry, request
   the work resource: failure, non-200 or unparseable body → `None`,
   otherwise return `extract_summary(work)`;
4. otherwise `None`.

Exceptions escaping to the caller (the `AttributeError` cases of
`extract_summary` and of `edition.get`) are the `.error` results. -/
def fetch_summary_by_isbn (net : Net) (isbn : PyStr) : Except PyExn (Option PyStr) :=
  let isbn := normalize_isbn isbn
  if isbn = [] then .ok none
  else
    match net (.edition isbn) with
    | .exn => .ok none
    | .resp status body =>
      if status ≠ 200 then .ok none
      else
        match body with
        | .junk => .ok none
        | .json edition =>
          match extract_summary edition with
          | .error e => .error e
          | .ok summary =>
            if optStrTruthy summary then .ok summary
            else
              match edition.pyGet "works".toList with
              | .error e => .error e
              | .ok works0 =>
                let works := if works0.truthy then works0 else .arr []
                match works with
                | .arr (first :: _rest) =>
                  match first with
                  | .obj firstKvs =>
                    if dictHasKey firstKvs "key".toList then
                      match net (.work (dictGet firstKvs "key".toList)) with
                      | .exn => .ok none
                      | .resp wstatus wbody =>
                        if wstatus ≠ 200 then .ok none
                        else
                          match wbody with
                          | .junk => .ok none
                          | .json work => extract_summary work
                    else .ok none
                  | _ => .ok none
                | _ => .ok none

/-- The `authors` table row (`data_models.py`, lines 5-26).  Ids are the
integer surrogate primary key.  Calendar dates are stored as the trimmed
form strings delivered by the web layer: the `YYYY-MM-DD` parsing of
`parse_date` is presentation glue and no property below reads a date
value.  `birth_date` is declared non-nullable, `date_of_death` nullable. -/
structure Author where
  id : Int
  name : PyStr
  birth_date : PyStr
  date_of_death : Option PyStr
deriving DecidableEq, Repr

/-- The `books` table row (`data_models.py`, lines 28-47): unique `isbn`,
`title`, `publication_year`, optional `summary`, and the `author_id`
foreign key into `authors.id`. -/
structure Book where
  id : Int
  isbn : PyStr
  title : PyStr
  publication_year : Int
  summary : Option PyStr
  author_id : Int
deriving DecidableEq, Repr

/-- The persisted state: the two tables. -/
structure LibState where
  authors : List Author
  books : List Book
deriving DecidableEq, Repr

/-- `NotFoundError`: `get_or_404` on an unknown id. -/
inductive StoreError where
  | notFound : StoreError
deriving DecidableEq, Repr

/-- `delete_book` from `app.py` (lines 272-290): look the book up
(`get_or_404`), delete it, flush so the deletion is visible to the count
query, count the remaining books of the former author, and delete the
author as well when that count is zero; then commit. -/
def delete_book (s : LibState) (book_id : Int) : Except StoreError LibState :=
  match s.books.find? (fun b => b.id = book_id) with
  | none => .error .notFound
  | some book =>
    let remaining := s.books.filter (fun b => b.id ≠ book_id)
    if remaining.countP (fun b => b.author_id = book.author_id) = 0 then
      .ok ⟨s.authors.filter (fun a => a.id ≠ book.author_id), remaining⟩
    else
      .ok ⟨s.authors, remaining⟩

/-- `delete_author` from `app.py` (lines 292-304): look the author up
(`get_or_404`) and delete it; the relationship declared in
`data_models.py` (lines 16-20) cascades the delete to every book whose
`author_id` references the author. -/
def delete_author (s : LibState) (author_id : Int) : Except StoreError LibState :=
  if s.authors.any (fun a => a.id = author_id) then
    .ok ⟨s.authors.filter (fun a => a.id ≠ author_id),
         s.books.filter (fun b => b.author_id ≠ author_id)⟩
  else .error .notFound

/-- Digit run of Python `int(str)` (underscore digit grouping, which
Python also accepts, is not modelled; no property below depends on it). -/
def pyIntDigits? (t : PyStr) : Option Nat :=
  if t.isEmpty then none
  else if t.all Char.isDigit then
    some (t.foldl (fun acc c => acc * 10 + (c.toNat - '0'.toNat)) 0)
  else none

/-- Python `int(str)`: surrounding whitespace tolerated, optional sign,
decimal digits; anything else raises `ValueError` (modelled as `none`). -/
def pyInt? (s : PyStr) : Option Int :=
  match pyStrip s with
  | '-' :: rest => (pyIntDigits? rest).map (fun n => -(n : Int))
  | '+' :: rest => (pyIntDigits? rest).map (fun n => (n : Int))
  | t => (pyIntDigits? t).map (fun n => (n : Int))

/-- The user-visible outcomes of the `add_book` POST handler: the three
validation messages, the `IntegrityError` message, and success. -/
inductive AddBookOutcome where
  | missingFields : AddBookOutcome
  | invalidNumbers : AddBookOutcome
  | yearOutOfRange : AddBookOutcome
  | integrityError : AddBookOutcome
  | success : AddBookOutcome
deriving DecidableEq, Repr

/-- The `add_book` POST handler core from `app.py` (lines 218-259):
read and strip the form fields, require all four, cast year and author id
to `int`, range-check the year, build the book (fetching the summary,
which can itself raise — the `.error` results), and commit.  `current_year`
stands for `datetime.now().year` and `new_id` for the autoincrement key.
The commit re-raises the store constraint violations declared in
`data_models.py` — duplicate `isbn` (UNIQUE) or unknown `author_id`
(FOREIGN KEY) — as `IntegrityError`, which the handler catches and rolls
back, leaving the state unchanged. -/
def add_book (net : Net) (s : LibState)
    (title isbn publication_year_str author_id_str : PyStr)
    (current_year : Int) (new_id : Int) :
    Except PyExn (LibState × AddBookOutcome) :=
  let title := pyStrip title
  let isbn := pyStrip isbn
  let publication_year_str := pyStrip publication_year_str
  let author_id_str := pyStrip author_id_str
  if title.isEmpty || isbn.isEmpty
      || publication_year_str.isEmpty || author_id_str.isEmpty then
    .ok (s, .missingFields)
  else
    match pyInt? publication_year_str, pyInt? author_id_str with
    | some publication_year, some author_id =>
      if publication_year < 0 ∨ publication_year > current_year then
        .ok (s, .yearOutOfRange)
      else
        match fetch_summary_by_isbn net isbn with
        | .error e => .error e
        | .ok summary =>
          let new_book : Book :=
            ⟨new_id, isbn, title, publication_year, summary, author_id⟩
          if s.books.any (fun b => b.isbn = isbn)
              || !s.authors.any (fun a => a.id = author_id) then
            .ok (s, .integrityError)
          else
            .ok ({ s with books := s.books ++ [new_book] }, .success)
    | _, _ => .ok (s, .invalidNumbers)

/-- The user-visible outcomes of the `add_author` POST handler. -/
inductive AddAuthorOutcome where
  | missingFields : AddAuthorOutcome
  | success : AddAuthorOutcome
deriving DecidableEq, Repr

/-- The `add_author` POST handler core from `app.py` (lines 174-198):
strip the fields, require name and birth date, persist.  An empty death
date is stored as `NULL`. -/
def add_author (s : LibState) (name birth_date_str date_of_death_str : PyStr)
    (new_id : Int) : LibState × AddAuthorOutcome :=
  let name := pyStrip name
  let birth_date_str := pyStrip birth_date_str
  let date_of_death_str := pyStrip date_of_death_str
  if name.isEmpty || birth_date_str.isEmpty then (s, .missingFields)
  else
    let date_of_death :=
      if date_of_death_str.isEmpty then none else some date_of_death_str
    ({ s with
        authors := s.authors ++ [⟨new_id, name, birth_date_str, date_of_death⟩] },
     .success)

/-- Lexicographic order on Python strings (SQL text collation as used by
`ORDER BY ... ASC` on the title and name columns). -/
def pyStrLe : PyStr → PyStr → Bool
  | [], _ => true
  | _ :: _, [] => false
  | a :: as, b :: bs => if a < b then true else if b < a then false else pyStrLe as bs

/-- `needle` occurs contiguously inside `hay`. -/
def isSubstrOf (needle : PyStr) : PyStr → Bool
  | [] => needle.isEmpty
  | c :: rest => needle.isPrefixOf (c :: rest) || isSubstrOf needle rest

/-- `column.ilike(%q%)`: case-insensitive substring match.  SQL `LIKE`
metacharacters inside `q` are not modelled (no property below inspects the
filter at a query containing them). -/
def pyILike (q hay : PyStr) : Bool :=
  isSubstrOf (pyLower q) (pyLower hay)

/-- `Book.query.join(Author)`: the inner join of the two tables along
`books.author_id = authors.id`. -/
def joinRows (s : LibState) : List (Book × Author) :=
  s.books.flatMap (fun b =>
    (s.authors.filter (fun a => a.id = b.author_id)).map (fun a => (b, a)))

/-- The `home` query core from `app.py` (lines 142-164), after the web
layer has delivered the `q` and `sort` request arguments (the handler
strips them; per the specification the web layer delivers trimmed string
fields, so `q` and `sort_key` here are the trimmed values).  When `q` is
non-empty the joined rows are filtered by case-insensitive substring match
on title or author name; `sort=author` orders by author name then title,
any other sort key falls back to ordering by title. -/
def home (s : LibState) (q sort_key : PyStr) : List Book :=
  let base_query := joinRows s
  let filtered :=
    if !q.isEmpty then
      base_query.filter (fun r => pyILike q r.1.title || pyILike q r.2.name)
    else base_query
  if sort_key = "author".toList then
    (filtered.mergeSort (fun r r' =>
        if r.2.name = r'.2.name then pyStrLe r.1.title r'.1.title
        else pyStrLe r.2.name r'.2.name)).map (fun r => r.1)
  else
    (filtered.mergeSort (fun r r' => pyStrLe r.1.title r'.1.title)).map (fun r => r.1)

/-! ## String lemmas -/

theorem pyStrip_eq_rdropWhile (s : PyStr) :
    pyStrip s = List.rdropWhile isPySpace (List.dropWhile isPySpace s) := rfl

theorem pyStrip_subset (s : PyStr) : pyStrip s ⊆ s := by
  intro c hc
  rw [pyStrip_eq_rdropWhile] at hc
  exact (List.dropWhile_suffix isPySpace).subset
    ((List.rdropWhile_prefix isPySpace _).subset hc)

/-- Stripping a list whose head already fails the predicate strips nothing
at the front, even after trailing elements were removed. -/
theorem dropWhile_rdropWhile_self {p : Char → Bool} {l : PyStr}
    (h : List.dropWhile p l = l) :
    List.dropWhile p (List.rdropWhile p l) = List.rdropWhile p l := by
  obtain ⟨r, hr⟩ := List.rdropWhile_prefix p l
  cases hrd : List.rdropWhile p l with
  | nil => simp
  | cons b bs =>
    rw [hrd] at hr
    cases l with
    | nil => simp at hrd
    | cons a as =>
      have hba : b = a := by
        have := hr
        rw [List.cons_append] at this
        exact (List.cons.injEq _ _ _ _ ▸ this).1
      have hna : ¬ p a := by
        rw [List.dropWhile_cons] at h
        by_cases hpa : p a
        · rw [if_pos hpa] at h
          have hlen := congrArg List.length h
          have hsub := (List.dropWhile_sublist (l := as) p).length_le
          simp at hlen
          omega
        · exact hpa
      rw [List.dropWhile_cons_of_neg (hba ▸ hna)]

theorem pyStrip_idem (s : PyStr) : pyStrip (pyStrip s) = pyStrip s := by
  rw [pyStrip_eq_rdropWhile, pyStrip_eq_rdropWhile,
    dropWhile_rdropWhile_self (List.dropWhile_idempotent isPySpace s),
    List.rdropWhile_idempotent]

/-- C10 helper: a character surviving `normalize_isbn` survived both
filters. -/
theorem mem_normalize_isbn {c : Char} {s : PyStr} (hc : c ∈ normalize_isbn s) :
    c ≠ '-' ∧ c ≠ ' ' := by
  unfold normalize_isbn at hc
  have h1 : c ∈ pyReplaceAllChar ' ' (pyReplaceAllChar '-' s) := pyStrip_subset _ hc
  unfold pyReplaceAllChar at h1
  have h2 := List.of_mem_filter h1
  have h3 := List.of_mem_filter (List.mem_of_mem_filter h1)
  constructor
  · simpa using h3
  · simpa using h2

/-- C10.  `normalize_isbn` output contains no hyphen and no space, and
`normalize_isbn` is idempotent. -/
theorem normalize_isbn_clean_idem (s : PyStr) :
    ('-' ∉ normalize_isbn s ∧ ' ' ∉ normalize_isbn s) ∧
      normalize_isbn (normalize_isbn s) = normalize_isbn s := by
  refine ⟨⟨fun h => (mem_normalize_isbn h).1 rfl, fun h => (mem_normalize_isbn h).2 rfl⟩, ?_⟩
  have hfix1 : pyReplaceAllChar '-' (normalize_isbn s) = normalize_isbn s := by
    unfold pyReplaceAllChar
    rw [List.filter_eq_self]
    intro a ha
    simpa using (mem_normalize_isbn ha).1
  have hfix2 : pyReplaceAllChar ' ' (normalize_isbn s) = normalize_isbn s := by
    unfold pyReplaceAllChar
    rw [List.filter_eq_self]
    intro a ha
    simpa using (mem_normalize_isbn ha).2
  conv_lhs => rw [normalize_isbn, hfix1, hfix2]
  conv_lhs => rw [normalize_isbn]
  exact pyStrip_idem _

/-! ## The summary resolver -/

/-- A network behaviour on which the edition endpoint answers 200 with the
valid JSON body `[]` — a non-object body. -/
def listBodyNet : Net := fun _ => .resp 200 (.json (.arr []))

/-- C1 counterexample.  On a 200 edition response whose body parses to the
JSON array `[]` (valid JSON, not an object), `fetch_summary_by_isbn`
raises `AttributeError` (at `data.get` inside `extract_summary`) instead
of returning a summary or `None`: the claim that it never raises for any
response body fails. -/
theorem fetch_summary_raises_on_nonobject_body :
    fetch_summary_by_isbn listBodyNet "1".toList = .error .attributeError := rfl

/-- C1 (amended).  For every ISBN and every network behaviour whose
successfully parsed response bodies are all ones the extraction step
accepts without raising (in particular any JSON-object bodies whose
`description`, when an object, has a string or falsy `value`),
`fetch_summary_by_isbn` returns a result — a summary or `None` — and
raises no exception; request failures, timeouts, non-200 statuses and
unparseable bodies all degrade to `None`. -/
theorem fetch_summary_total (net : Net) (isbn : PyStr)
    (h : ∀ req st j, net req = .resp st (.json j) →
      ∃ o, extract_summary j = .ok o) :
    ∃ r, fetch_summary_by_isbn net isbn = .ok r := by
  unfold fetch_summary_by_isbn
  by_cases hn : normalize_isbn isbn = []
  · exact ⟨none, by simp [hn]⟩
  · simp only [hn, if_false]
    cases hnet : net (.edition (normalize_isbn isbn)) with
    | exn => exact ⟨none, rfl⟩
    | resp status body =>
      by_cases hst : status = 200
      · subst hst
        simp only [ne_eq, not_true_eq_false, if_false, ite_false, reduceIte]
        cases body with
        | junk => exact ⟨none, rfl⟩
        | json edition =>
          obtain ⟨o, ho⟩ := h _ _ _ hnet
          dsimp only
          rw [ho]
          by_cases htr : optStrTruthy o = true
          · exact ⟨o, by simp [htr]⟩
          · simp only [htr, if_false, Bool.false_eq_true]
            have hobj : ∃ kvs, edition = .obj kvs := by
              cases edition with
              | obj kvs => exact ⟨kvs, rfl⟩
              | null => simp [extract_summary] at ho
              | bool b => simp [extract_summary] at ho
              | num n => simp [extract_summary] at ho
              | str s => simp [extract_summary] at ho
              | arr xs => simp [extract_summary] at ho
            obtain ⟨kvs, hkvs⟩ := hobj
            subst hkvs
            simp only [Json.pyGet]
            cases hw : (if (dictGet kvs "works".toList).truthy
                then dictGet kvs "works".toList else .arr []) with
            | arr elems =>
              cases elems with
              | nil => exact ⟨none, by simp [hw]⟩
              | cons first rest =>
                cases first with
                | obj firstKvs =>
                  by_cases hkey : dictHasKey firstKvs "key".toList = true
                  · cases hwnet : net (.work (dictGet firstKvs "key".toList)) with
                    | exn =>
                      exact ⟨none, by dsimp only; rw [if_pos hkey, hwnet]⟩
                    | resp wst wbody =>
                      by_cases hwst : wst = 200
                      · subst hwst
                        cases wbody with
                        | junk =>
                          exact ⟨none, by
                            dsimp only; rw [if_pos hkey, hwnet]; simp⟩
                        | json work =>
                          obtain ⟨wo, hwo⟩ := h _ _ _ hwnet
                          exact ⟨wo, by
                            dsimp only; rw [if_pos hkey, hwnet]; simp [hwo]⟩
                      · exact ⟨none, by
                          dsimp only; rw [if_pos hkey, hwnet]; simp [hwst]⟩
                  · exact ⟨none, by dsimp only; rw [if_neg hkey]⟩
                | null => exact ⟨none, by simp [hw]⟩
                | bool b => exact ⟨none, by simp [hw]⟩
                | num n => exact ⟨none, by simp [hw]⟩
                | str s => exact ⟨none, by simp [hw]⟩
                | arr xs => exact ⟨none, by simp [hw]⟩
            | null => exact ⟨none, by simp [hw]⟩
            | bool b => exact ⟨none, by simp [hw]⟩
            | num n => exact ⟨none, by simp [hw]⟩
            | str s => exact ⟨none, by simp [hw]⟩
            | obj kvs2 => exact ⟨none, by simp [hw]⟩
      · exact ⟨none, by simp [hnet, hst]⟩

/-- C1 witness: at the always-failing network and ISBN `1`, the theorem
applies and yields a result. -/
theorem fetch_summary_total_witness :
    ∃ r, fetch_summary_by_isbn (fun _ => .exn) "1".toList = .ok r :=
  fetch_summary_total (fun _ => .exn) "1".toList
    (fun req st j hreq => by simp at hreq)

/-- The shared extraction rule as the specification words it, for
comparison with `extract_summary`: a string `description` is trimmed and
returned when non-empty; an object `description` yields its trimmed
`value` sub-field when non-empty; absent or any other shape yields no
summary. -/
def extract_summary_spec (kvs : List (PyStr × Json)) : Option PyStr :=
  match dictGet kvs "description".toList with
  | .str s =>
    let t := pyStrip s
    if t = [] then none else some t
  | .obj descKvs =>
    match dictGet descKvs "value".toList with
    | .str v =>
      let t := pyStrip v
      if t = [] then none else some t
    | _ => none
  | _ => none

/-- The side condition under which the extraction in the code matches the
specification: when the `description` field is an object, its `value`
sub-field is a string whenever it is truthy. -/
def descValueOK (kvs : List (PyStr × Json)) : Prop :=
  ∀ descKvs, dictGet kvs "description".toList = .obj descKvs →
    (dictGet descKvs "value".toList).truthy = true →
    ∃ v, dictGet descKvs "value".toList = .str v

/-- C2 counterexample.  On the response object with description
`value: 42` (an object-shaped description whose `value` is a truthy
non-string), `extract_summary` raises `AttributeError` (`.strip()` on an
`int`) rather than returning the trimmed sub-field or the no-summary
value, so the claim fails as stated for every response object. -/
theorem extract_summary_raises_on_numeric_value :
    extract_summary
        (.obj [("description".toList, .obj [("value".toList, .num 42)])])
      = .error .attributeError := rfl

/-- C2 (amended).  For every response object whose `description`, when an
object, carries a `value` sub-field that is a string whenever truthy, the
extraction in the code agrees with the shared extraction rule of the specification:
string description → trimmed, non-empty or no summary; object description
→ trimmed `value` sub-field, non-empty or no summary; absent or other
shape → no summary. -/
theorem extract_summary_follows_spec (kvs : List (PyStr × Json))
    (h : descValueOK kvs) :
    extract_summary (.obj kvs) = .ok (extract_summary_spec kvs) := by
  unfold extract_summary extract_summary_spec
  dsimp only
  cases hd : dictGet kvs "description".toList with
  | str s => rfl
  | obj descKvs =>
    dsimp only
    cases hv : dictGet descKvs "value".toList with
    | str v =>
      by_cases hve : v = []
      · subst hve
        rfl
      · have htr : (Json.str v).truthy = true := by simp [Json.truthy, hve]
        rw [if_pos htr]
    | null => rfl
    | bool b =>
      cases b with
      | false => rfl
      | true =>
        obtain ⟨v, hv2⟩ := h descKvs hd (by rw [hv]; rfl)
        rw [hv] at hv2
        cases hv2
    | num n =>
      by_cases hn : n = 0
      · subst hn
        rfl
      · obtain ⟨v, hv2⟩ := h descKvs hd (by rw [hv]; simp [Json.truthy, hn])
        rw [hv] at hv2
        cases hv2
    | arr xs =>
      cases xs with
      | nil => rfl
      | cons x xs =>
        obtain ⟨v, hv2⟩ := h descKvs hd (by rw [hv]; rfl)
        rw [hv] at hv2
        cases hv2
    | obj okvs =>
      cases okvs with
      | nil => rfl
      | cons x xs =>
        obtain ⟨v, hv2⟩ := h descKvs hd (by rw [hv]; rfl)
        rw [hv] at hv2
        cases hv2
  | null => rfl
  | bool b => rfl
  | num n => rfl
  | arr xs => rfl

/-- C2 witness: the theorem applied to the edition-style object with a
plain string description. -/
theorem extract_summary_follows_spec_witness :
    extract_summary (.obj [("description".toList, .str " A tale. ".toList)])
      = .ok (some "A tale.".toList) :=
  (extract_summary_follows_spec
      [("description".toList, .str " A tale. ".toList)]
      (fun descKvs hd => by cases hd)).trans rfl

/-! ## Catalog store lemmas -/

section KeyLemmas

variable {α κ : Type} (key : α → κ)

/-- With pairwise-distinct keys, members are determined by their key. -/
theorem key_inj_of_nodup {l : List α} (hn : (l.map key).Nodup)
    {x y : α} (hx : x ∈ l) (hy : y ∈ l) (hk : key x = key y) : x = y := by
  induction l with
  | nil => cases hx
  | cons a as ih =>
    rw [List.map_cons, List.nodup_cons] at hn
    cases List.mem_cons.mp hx with
    | inl hxa =>
      cases List.mem_cons.mp hy with
      | inl hya => rw [hxa, hya]
      | inr hymem =>
        subst hxa
        exact absurd (hk ▸ List.mem_map_of_mem key hymem) hn.1
    | inr hxmem =>
      cases List.mem_cons.mp hy with
      | inl hya =>
        subst hya
        exact absurd (hk ▸ List.mem_map_of_mem key hxmem) hn.1
      | inr hymem => exact ih hn.2 hxmem hymem

variable [DecidableEq κ]

/-- With pairwise-distinct keys, looking a member up by its key finds it. -/
theorem find?_key_of_nodup {l : List α} (hn : (l.map key).Nodup)
    {x : α} (hx : x ∈ l) :
    l.find? (fun y => key y = key x) = some x := by
  have hsome : (l.find? (fun y => key y = key x)).isSome := by
    rw [List.find?_isSome]
    exact ⟨x, hx, by simp⟩
  obtain ⟨y, hy⟩ := Option.isSome_iff_exists.mp hsome
  have hymem := List.mem_of_find?_eq_some hy
  have hyp := List.find?_some hy
  simp only [decide_eq_true_eq] at hyp
  rw [hy, key_inj_of_nodup key hn hymem hx hyp]

/-- With pairwise-distinct keys, filtering for the key of a member yields
exactly that member. -/
theorem filter_key_of_nodup {l : List α} (hn : (l.map key).Nodup)
    {x : α} (hx : x ∈ l) :
    l.filter (fun y => key y = key x) = [x] := by
  induction l with
  | nil => cases hx
  | cons a as ih =>
    rw [List.map_cons, List.nodup_cons] at hn
    cases List.mem_cons.mp hx with
    | inl hxa =>
      rw [List.filter_cons_of_pos (by simp [hxa])]
      have htail : as.filter (fun y => key y = key x) = [] := by
        rw [List.filter_eq_nil_iff]
        intro b hb
        simp only [decide_eq_true_eq]
        intro hkb
        have hmem : key b ∈ List.map key as := List.mem_map_of_mem key hb
        rw [hkb, hxa] at hmem
        exact hn.1 hmem
      rw [htail, hxa]
    | inr hxmem =>
      have hne : ¬ (key a = key x) := by
        intro hka
        exact hn.1 (hka ▸ List.mem_map_of_mem key hxmem)
      rw [List.filter_cons_of_neg (by simpa using hne)]
      exact ih hn.2 hxmem

/-- Counting a predicate after removing one member by key: the member
satisfies the predicate, so the count drops by exactly one. -/
theorem countP_filter_key_of_nodup {l : List α} (hn : (l.map key).Nodup)
    {x : α} (hx : x ∈ l) (q : α → Bool) (hq : q x = true) :
    l.countP q = (l.filter (fun y => key y ≠ key x)).countP q + 1 := by
  have hperm := List.filter_append_perm (fun y => key y = key x) l
  have hsplit := (hperm.countP_eq q).symm
  rw [List.countP_append, filter_key_of_nodup key hn hx] at hsplit
  have hone : List.countP q [x] = 1 := by simp [hq]
  have hfe : l.filter (fun y => !(key y = key x)) =
      l.filter (fun y => key y ≠ key x) := by
    simp
  rw [hone, hfe] at hsplit
  omega

end KeyLemmas

/-- Characterisation of a successful `delete_book`: the book row is
removed by id; the author row of the deleted book is removed exactly when
the deleted book was the last one counted for that author — the count
taken after the deletion, i.e. the pre-state count was 1. -/
theorem delete_book_eq {s : LibState} {B : Book}
    (hn : (s.books.map Book.id).Nodup) (hB : B ∈ s.books) :
    delete_book s B.id =
      .ok ⟨if s.books.countP (fun b => b.author_id = B.author_id) = 1
             then s.authors.filter (fun a => a.id ≠ B.author_id)
             else s.authors,
           s.books.filter (fun b => b.id ≠ B.id)⟩ := by
  unfold delete_book
  rw [find?_key_of_nodup Book.id hn hB]
  dsimp only
  have hcount := countP_filter_key_of_nodup Book.id hn hB
    (fun b => b.author_id = B.author_id) (by simp)
  by_cases h0 : (s.books.filter (fun b => b.id ≠ B.id)).countP
      (fun b => b.author_id = B.author_id) = 0
  · rw [if_pos h0, if_pos (by omega)]
  · rw [if_neg h0, if_neg (by omega)]

/-- C3.  Deleting an existing book `B` of author `A` removes `B`, and `A`
is absent afterwards exactly when `B` was the only book counted for `A`
(the count is taken after the delete); with at least two books, `A`
remains. -/
theorem delete_book_orphan_cleanup (s : LibState) (A : Author) (B : Book)
    (hn : (s.books.map Book.id).Nodup) (hB : B ∈ s.books)
    (hA : A ∈ s.authors) (hown : B.author_id = A.id) :
    ∃ s', delete_book s B.id = .ok s' ∧
      B ∉ s'.books ∧
      (A ∉ s'.authors ↔ s.books.countP (fun b => b.author_id = A.id) = 1) ∧
      (2 ≤ s.books.countP (fun b => b.author_id = A.id) → A ∈ s'.authors) := by
  refine ⟨_, delete_book_eq hn hB, ?_, ?_, ?_⟩
  · intro hmem
    have := List.of_mem_filter hmem
    simp at this
  · have hq : (fun (b : Book) => decide (b.author_id = A.id))
        = (fun (b : Book) => decide (b.author_id = B.author_id)) := by
      funext b
      rw [hown]
    show A ∉ (if s.books.countP (fun b => b.author_id = B.author_id) = 1
        then s.authors.filter (fun a => a.id ≠ B.author_id)
        else s.authors) ↔ _
    rw [show List.countP (fun (b : Book) => decide (b.author_id = A.id)) s.books
        = List.countP (fun (b : Book) => decide (b.author_id = B.author_id)) s.books from by rw [hq]]
    by_cases hc : s.books.countP (fun b => b.author_id = B.author_id) = 1
    · rw [if_pos hc]
      constructor
      · intro _
        exact hc
      · intro _ hmem
        have := List.of_mem_filter hmem
        rw [hown] at this
        simp at this
    · rw [if_neg hc]
      constructor
      · intro hnot
        exact absurd hA hnot
      · intro h1
        exact absurd h1 hc
  · intro h2
    have hq : (fun (b : Book) => decide (b.author_id = A.id))
        = (fun (b : Book) => decide (b.author_id = B.author_id)) := by
      funext b
      rw [hown]
    rw [show List.countP (fun (b : Book) => decide (b.author_id = A.id)) s.books
        = List.countP (fun (b : Book) => decide (b.author_id = B.author_id)) s.books from by rw [hq]] at h2
    have hc : ¬ s.books.countP (fun b => b.author_id = B.author_id) = 1 := by omega
    show A ∈ (if s.books.countP (fun b => b.author_id = B.author_id) = 1
        then s.authors.filter (fun a => a.id ≠ B.author_id)
        else s.authors)
    rw [if_neg hc]
    exact hA

/-- C3 witness: a two-author, two-book store; deleting the only
book of author 1 removes author 1 as well. -/
theorem delete_book_orphan_cleanup_witness :
    ∃ s', delete_book
        ⟨[⟨1, "A".toList, "1990-01-01".toList, none⟩,
          ⟨2, "B".toList, "1980-01-01".toList, none⟩],
         [⟨10, "111".toList, "T1".toList, 2000, none, 1⟩,
          ⟨11, "222".toList, "T2".toList, 2001, none, 2⟩]⟩ (10 : Int) = .ok s' ∧
      (⟨10, "111".toList, "T1".toList, 2000, none, 1⟩ : Book) ∉ s'.books ∧
      ((⟨1, "A".toList, "1990-01-01".toList, none⟩ : Author) ∉ s'.authors ↔
        List.countP (fun b => decide (b.author_id = 1))
          [(⟨10, "111".toList, "T1".toList, 2000, none, 1⟩ : Book),
           ⟨11, "222".toList, "T2".toList, 2001, none, 2⟩] = 1) ∧
      (2 ≤ List.countP (fun b => decide (b.author_id = 1))
          [(⟨10, "111".toList, "T1".toList, 2000, none, 1⟩ : Book),
           ⟨11, "222".toList, "T2".toList, 2001, none, 2⟩] →
        (⟨1, "A".toList, "1990-01-01".toList, none⟩ : Author) ∈ s'.authors) :=
  delete_book_orphan_cleanup
    ⟨[⟨1, "A".toList, "1990-01-01".toList, none⟩,
      ⟨2, "B".toList, "1980-01-01".toList, none⟩],
     [⟨10, "111".toList, "T1".toList, 2000, none, 1⟩,
      ⟨11, "222".toList, "T2".toList, 2001, none, 2⟩]⟩
    ⟨1, "A".toList, "1990-01-01".toList, none⟩
    ⟨10, "111".toList, "T1".toList, 2000, none, 1⟩
    (by decide) (by decide) (by decide) (by decide)

/-- C9.  Deleting an existing book `B` of author `A` leaves every other
book row and every author row other than `A` untouched: membership of the
unchanged rows (with all their fields and references) is preserved in
both directions, and nothing new appears. -/
theorem delete_book_frame (s : LibState) (A : Author) (B : Book)
    (hnB : (s.books.map Book.id).Nodup) (hnA : (s.authors.map Author.id).Nodup)
    (hB : B ∈ s.books) (hA : A ∈ s.authors) (hown : B.author_id = A.id) :
    ∃ s', delete_book s B.id = .ok s' ∧
      (∀ b ∈ s.books, b ≠ B → b ∈ s'.books) ∧
      (∀ b ∈ s'.books, b ∈ s.books) ∧
      (∀ a ∈ s.authors, a ≠ A → a ∈ s'.authors) ∧
      (∀ a ∈ s'.authors, a ∈ s.authors) := by
  refine ⟨_, delete_book_eq hnB hB, ?_, ?_, ?_, ?_⟩
  · intro b hb hne
    refine List.mem_filter.mpr ⟨hb, ?_⟩
    have hid : b.id ≠ B.id := fun h => hne (key_inj_of_nodup Book.id hnB hb hB h)
    simpa using hid
  · intro b hb
    exact List.mem_of_mem_filter hb
  · intro a ha hne
    by_cases hc : s.books.countP (fun b => b.author_id = B.author_id) = 1
    · show a ∈ (if _ then _ else _)
      rw [if_pos hc]
      refine List.mem_filter.mpr ⟨ha, ?_⟩
      have hid : a.id ≠ A.id := fun h => hne (key_inj_of_nodup Author.id hnA ha hA h)
      rw [hown]
      simpa using hid
    · show a ∈ (if _ then _ else _)
      rw [if_neg hc]
      exact ha
  · intro a ha
    by_cases hc : s.books.countP (fun b => b.author_id = B.author_id) = 1
    · rw [show (if s.books.countP (fun b => b.author_id = B.author_id) = 1
          then s.authors.filter (fun x => x.id ≠ B.author_id)
          else s.authors) = s.authors.filter (fun x => x.id ≠ B.author_id)
          from if_pos hc] at ha
      exact List.mem_of_mem_filter ha
    · rw [show (if s.books.countP (fun b => b.author_id = B.author_id) = 1
          then s.authors.filter (fun x => x.id ≠ B.author_id)
          else s.authors) = s.authors
          from if_neg hc] at ha
      exact ha

/-- C9 witness: in the two-author two-book store, deleting book 10 leaves
book 11 and author 2 in place and introduces nothing new. -/
theorem delete_book_frame_witness :
    ∃ s', delete_book
        ⟨[⟨1, "A".toList, "1990-01-01".toList, none⟩,
          ⟨2, "B".toList, "1980-01-01".toList, none⟩],
         [⟨10, "111".toList, "T1".toList, 2000, none, 1⟩,
          ⟨11, "222".toList, "T2".toList, 2001, none, 2⟩]⟩ (10 : Int) = .ok s' ∧
      (∀ b ∈ [(⟨10, "111".toList, "T1".toList, 2000, none, 1⟩ : Book),
              ⟨11, "222".toList, "T2".toList, 2001, none, 2⟩],
        b ≠ ⟨10, "111".toList, "T1".toList, 2000, none, 1⟩ → b ∈ s'.books) ∧
      (∀ b ∈ s'.books,
        b ∈ [(⟨10, "111".toList, "T1".toList, 2000, none, 1⟩ : Book),
             ⟨11, "222".toList, "T2".toList, 2001, none, 2⟩]) ∧
      (∀ a ∈ [(⟨1, "A".toList, "1990-01-01".toList, none⟩ : Author),
              ⟨2, "B".toList, "1980-01-01".toList, none⟩],
        a ≠ ⟨1, "A".toList, "1990-01-01".toList, none⟩ → a ∈ s'.authors) ∧
      (∀ a ∈ s'.authors,
        a ∈ [(⟨1, "A".toList, "1990-01-01".toList, none⟩ : Author),
             ⟨2, "B".toList, "1980-01-01".toList, none⟩]) :=
  delete_book_frame
    ⟨[⟨1, "A".toList, "1990-01-01".toList, none⟩,
      ⟨2, "B".toList, "1980-01-01".toList, none⟩],
     [⟨10, "111".toList, "T1".toList, 2000, none, 1⟩,
      ⟨11, "222".toList, "T2".toList, 2001, none, 2⟩]⟩
    ⟨1, "A".toList, "1990-01-01".toList, none⟩
    ⟨10, "111".toList, "T1".toList, 2000, none, 1⟩
    (by decide) (by decide) (by decide) (by decide) (by decide)

/-- Every stored book references an existing author. -/
def refsExist (s : LibState) : Prop :=
  ∀ b ∈ s.books, ∃ a ∈ s.authors, a.id = b.author_id

/-- Author surrogate ids are pairwise distinct (primary key). -/
def authorIdsNodup (s : LibState) : Prop :=
  (s.authors.map Author.id).Nodup

/-- Shared helper: a successful `delete_author` preserves `refsExist`. -/
theorem delete_author_preserves_refs {s : LibState} {aid : Int} {s' : LibState}
    (h : delete_author s aid = .ok s') (hinv : refsExist s) : refsExist s' := by
  unfold delete_author at h
  by_cases hex : s.authors.any (fun a => a.id = aid) = true
  · rw [if_pos hex] at h
    cases h
    intro b hb
    have hbooks := List.mem_filter.mp hb
    obtain ⟨a, ha, haid⟩ := hinv b hbooks.1
    refine ⟨a, List.mem_filter.mpr ⟨ha, ?_⟩, haid⟩
    have hbne : b.author_id ≠ aid := by simpa using hbooks.2
    simp only [decide_eq_true_eq]
    intro hcontra
    exact hbne (haid ▸ hcontra)
  · rw [if_neg hex] at h
    cases h

/-- C4.  Deleting an existing author `A` succeeds, removes `A` and every
book referencing `A` in the same operation, and if every book referenced
an existing author before, the same holds after: no surviving book
references the deleted (or any nonexistent) author. -/
theorem delete_author_cascade (s : LibState) (A : Author) (hA : A ∈ s.authors) :
    ∃ s', delete_author s A.id = .ok s' ∧
      A ∉ s'.authors ∧
      (∀ b ∈ s.books, b.author_id = A.id → b ∉ s'.books) ∧
      (refsExist s → refsExist s') := by
  have hex : s.authors.any (fun a => a.id = A.id) = true := by
    rw [List.any_eq_true]
    exact ⟨A, hA, by simp⟩
  have heq : delete_author s A.id =
      .ok ⟨s.authors.filter (fun a => a.id ≠ A.id),
           s.books.filter (fun b => b.author_id ≠ A.id)⟩ := by
    unfold delete_author
    rw [if_pos hex]
  refine ⟨_, heq, ?_, ?_, delete_author_preserves_refs heq⟩
  · intro hmem
    have := List.of_mem_filter hmem
    simp at this
  · intro b hb hbid hmem
    have := List.of_mem_filter hmem
    rw [hbid] at this
    simp at this

/-- C4 witness: deleting author 1 from the two-author two-book store
removes the author, removes its book, and preserves referential
integrity. -/
theorem delete_author_cascade_witness :
    ∃ s', delete_author
        ⟨[⟨1, "A".toList, "1990-01-01".toList, none⟩,
          ⟨2, "B".toList, "1980-01-01".toList, none⟩],
         [⟨10, "111".toList, "T1".toList, 2000, none, 1⟩,
          ⟨11, "222".toList, "T2".toList, 2001, none, 2⟩]⟩ (1 : Int) = .ok s' ∧
      (⟨1, "A".toList, "1990-01-01".toList, none⟩ : Author) ∉ s'.authors ∧
      (∀ b ∈ [(⟨10, "111".toList, "T1".toList, 2000, none, 1⟩ : Book),
              ⟨11, "222".toList, "T2".toList, 2001, none, 2⟩],
        b.author_id = 1 → b ∉ s'.books) ∧
      (refsExist
          ⟨[⟨1, "A".toList, "1990-01-01".toList, none⟩,
            ⟨2, "B".toList, "1980-01-01".toList, none⟩],
           [⟨10, "111".toList, "T1".toList, 2000, none, 1⟩,
            ⟨11, "222".toList, "T2".toList, 2001, none, 2⟩]⟩ → refsExist s') :=
  delete_author_cascade
    ⟨[⟨1, "A".toList, "1990-01-01".toList, none⟩,
      ⟨2, "B".toList, "1980-01-01".toList, none⟩],
     [⟨10, "111".toList, "T1".toList, 2000, none, 1⟩,
      ⟨11, "222".toList, "T2".toList, 2001, none, 2⟩]⟩
    ⟨1, "A".toList, "1990-01-01".toList, none⟩
    (by decide)

/-- C5.  With the other form fields valid (non-empty, numeric year and
author id, year in range) and the summary fetch returning, submitting an
ISBN already present in the store makes `add_book` surface the store
unique-constraint violation (`IntegrityError`, shown as the duplicate-ISBN
message) and roll back: the returned state is the untouched input state,
so the book count and every existing book are unchanged. -/
theorem add_book_duplicate_isbn_rejected (net : Net) (s : LibState)
    (title isbn pys aids : PyStr) (cy nid y aid : Int) (summ : Option PyStr)
    (htitle : pyStrip title ≠ [])
    (hisbn : pyStrip isbn ≠ [])
    (hy : pyInt? (pyStrip pys) = some y)
    (haid : pyInt? (pyStrip aids) = some aid)
    (hrange : 0 ≤ y ∧ y ≤ cy)
    (hfetch : fetch_summary_by_isbn net (pyStrip isbn) = .ok summ)
    (hdup : ∃ b ∈ s.books, b.isbn = pyStrip isbn) :
    add_book net s title isbn pys aids cy nid = .ok (s, .integrityError) := by
  have hpyse : pyStrip pys ≠ [] := by
    intro he
    rw [he] at hy
    cases hy
  have haide : pyStrip aids ≠ [] := by
    intro he
    rw [he] at haid
    cases haid
  unfold add_book
  dsimp only
  rw [if_neg (by simp [List.isEmpty_iff, htitle, hisbn, hpyse, haide])]
  rw [hy, haid]
  dsimp only
  rw [if_neg (by omega), hfetch]
  dsimp only
  have hany : s.books.any (fun b => b.isbn = pyStrip isbn) = true := by
    rw [List.any_eq_true]
    obtain ⟨b, hb, hbisbn⟩ := hdup
    exact ⟨b, hb, by simp [hbisbn]⟩
  rw [if_pos (by rw [hany]; simp)]

/-- C5 witness: a store already holding ISBN `12`; re-submitting `12`
with valid fields returns the unchanged state and the integrity error. -/
theorem add_book_duplicate_isbn_rejected_witness :
    add_book (fun _ => .exn)
        ⟨[⟨1, "A".toList, "1990-01-01".toList, none⟩],
         [⟨7, "12".toList, "T".toList, 2000, none, 1⟩]⟩
        "U".toList "12".toList "2001".toList "1".toList 2025 8
      = .ok (⟨[⟨1, "A".toList, "1990-01-01".toList, none⟩],
              [⟨7, "12".toList, "T".toList, 2000, none, 1⟩]⟩, .integrityError) :=
  add_book_duplicate_isbn_rejected (fun _ => .exn)
    ⟨[⟨1, "A".toList, "1990-01-01".toList, none⟩],
     [⟨7, "12".toList, "T".toList, 2000, none, 1⟩]⟩
    "U".toList "12".toList "2001".toList "1".toList 2025 8 2001 1 none
    (by decide) (by decide) (by decide) (by decide) (by decide) (by rfl)
    ⟨⟨7, "12".toList, "T".toList, 2000, none, 1⟩, by decide, by decide⟩

/-- C6 counterexample.  Submitting the identifier `1-2` persists a book
whose stored ISBN is `1-2` — the trimmed raw form — while the normalized
form (hyphens and spaces stripped) is `12`: the stored ISBN is not the
normalized identifier, only the summary lookup normalizes it. -/
theorem add_book_keeps_hyphens_in_stored_isbn :
    add_book (fun _ => .exn)
        ⟨[⟨1, "A".toList, "1990-01-01".toList, none⟩], []⟩
        "T".toList "1-2".toList "2000".toList "1".toList 2025 7
      = .ok (⟨[⟨1, "A".toList, "1990-01-01".toList, none⟩],
              [⟨7, "1-2".toList, "T".toList, 2000, none, 1⟩]⟩, .success) ∧
      normalize_isbn "1-2".toList ≠ "1-2".toList := ⟨rfl, by decide⟩

/-- C6 (amended).  Every successful `add_book` appends one book whose
stored ISBN is the submitted identifier with surrounding whitespace
stripped (the web-layer `.strip()`), not the hyphen/space-normalized
form; normalization is applied only to the identifier sent to the summary
lookup. -/
theorem add_book_stores_trimmed_isbn (net : Net) (s : LibState)
    (title isbn pys aids : PyStr) (cy nid : Int) (s' : LibState)
    (h : add_book net s title isbn pys aids cy nid = .ok (s', .success)) :
    ∃ bk, s'.books = s.books ++ [bk] ∧ bk.isbn = pyStrip isbn := by
  unfold add_book at h
  dsimp only at h
  split at h
  · simp at h
  · split at h
    · split at h
      · simp at h
      · split at h
        · simp at h
        · split at h
          · simp at h
          · simp only [Except.ok.injEq, Prod.mk.injEq] at h
            obtain ⟨hs, -⟩ := h
            subst hs
            exact ⟨_, rfl, rfl⟩
    · simp at h

/-- C6 amended-claim witness: the concrete run from the counterexample
seen through the amended statement. -/
theorem add_book_stores_trimmed_isbn_witness :
    ∃ bk, (⟨[⟨1, "A".toList, "1990-01-01".toList, none⟩],
            [⟨7, "1-2".toList, "T".toList, 2000, none, 1⟩]⟩ : LibState).books
        = ([] : List Book) ++ [bk] ∧ bk.isbn = pyStrip "1-2".toList :=
  add_book_stores_trimmed_isbn (fun _ => .exn)
    ⟨[⟨1, "A".toList, "1990-01-01".toList, none⟩], []⟩
    "T".toList "1-2".toList "2000".toList "1".toList 2025 7
    ⟨[⟨1, "A".toList, "1990-01-01".toList, none⟩],
     [⟨7, "1-2".toList, "T".toList, 2000, none, 1⟩]⟩ rfl

/-- Characterisation of a successful `add_book`: the author id parsed, the
referenced author exists in the store (otherwise the FOREIGN KEY
constraint would have fired as `IntegrityError`), and the new state is the
old one with the one new book appended. -/
theorem add_book_success_spec {net : Net} {s : LibState}
    {title isbn pys aids : PyStr} {cy nid : Int} {s' : LibState}
    (h : add_book net s title isbn pys aids cy nid = .ok (s', .success)) :
    ∃ aid y summ,
      pyInt? (pyStrip aids) = some aid ∧
      s.authors.any (fun a => a.id = aid) = true ∧
      s' = { s with books :=
        s.books ++ [⟨nid, pyStrip isbn, pyStrip title, y, summ, aid⟩] } := by
  unfold add_book at h
  dsimp only at h
  split at h
  · simp at h
  · split at h
    · rename_i y aid hy haid
      split at h
      · simp at h
      · split at h
        · simp at h
        · rename_i summ hfetch
          split at h
          · simp at h
          · rename_i hcond
            simp only [Bool.not_eq_true, Bool.or_eq_false_iff] at hcond
            obtain ⟨hnodup, hauth⟩ := hcond
            have hauth2 : (s.authors.any fun a => decide (a.id = aid)) = true := by
              simpa using hauth
            simp only [Except.ok.injEq, Prod.mk.injEq] at h
            exact ⟨aid, y, summ, haid, hauth2, h.1.symm⟩
    · simp at h

/-- Shared helper: a successful `delete_book` preserves `refsExist` — the
author row is removed only when the post-delete count of its books is
zero, so no surviving book can reference it. -/
theorem delete_book_preserves_refs {s : LibState} {bid : Int} {s' : LibState}
    (h : delete_book s bid = .ok s') (hinv : refsExist s) : refsExist s' := by
  unfold delete_book at h
  cases hfind : s.books.find? (fun b => b.id = bid) with
  | none =>
    rw [hfind] at h
    cases h
  | some book =>
    rw [hfind] at h
    dsimp only at h
    by_cases hc : (s.books.filter (fun b => b.id ≠ bid)).countP
        (fun b => b.author_id = book.author_id) = 0
    · rw [if_pos hc] at h
      cases h
      intro b hb
      obtain ⟨a, ha, haid⟩ := hinv b (List.mem_filter.mp hb).1
      refine ⟨a, List.mem_filter.mpr ⟨ha, ?_⟩, haid⟩
      simp only [decide_eq_true_eq]
      intro haeq
      have hball := List.countP_eq_zero.mp hc b hb
      simp only [decide_eq_true_eq] at hball
      exact hball (by rw [← haid, haeq])
    · rw [if_neg hc] at h
      cases h
      intro b hb
      exact hinv b (List.mem_filter.mp hb).1

/-- Shared helper: `add_author` preserves `refsExist` (it only adds an
author row and never touches books). -/
theorem add_author_preserves_refs (s : LibState) (name bd dd : PyStr)
    (nid : Int) (hinv : refsExist s) :
    refsExist (add_author s name bd dd nid).1 := by
  unfold add_author
  dsimp only
  split
  · exact hinv
  · intro b hb
    obtain ⟨a, ha, haid⟩ := hinv b hb
    exact ⟨a, List.mem_append_left _ ha, haid⟩

/-- C7.  Referential integrity of the book→author reference through every
catalog operation: a successful `add_book` implies the submitted author id
parsed and denotes a pre-existing author, and preserves `refsExist`; both
delete operations and `add_author` preserve `refsExist`; and together with
distinct author ids, `refsExist` says every stored book references exactly
one existing author. -/
theorem book_author_reference_invariant :
    (∀ net s title isbn pys aids cy nid s',
        add_book net s title isbn pys aids cy nid = .ok (s', .success) →
        (∃ aid, pyInt? (pyStrip aids) = some aid ∧ ∃ a ∈ s.authors, a.id = aid) ∧
        (refsExist s → refsExist s')) ∧
    (∀ s bid s', delete_book s bid = .ok s' → refsExist s → refsExist s') ∧
    (∀ s aid s', delete_author s aid = .ok s' → refsExist s → refsExist s') ∧
    (∀ s name bd dd nid, refsExist s → refsExist (add_author s name bd dd nid).1) ∧
    (∀ s, authorIdsNodup s → refsExist s →
        ∀ b ∈ s.books, ∃! a, a ∈ s.authors ∧ a.id = b.author_id) := by
  refine ⟨?_, ?_, ?_, add_author_preserves_refs, ?_⟩
  · intro net s title isbn pys aids cy nid s' h
    obtain ⟨aid, y, summ, haid, hany, hs⟩ := add_book_success_spec h
    rw [List.any_eq_true] at hany
    obtain ⟨a, ha, haeq⟩ := hany
    simp only [decide_eq_true_eq] at haeq
    constructor
    · exact ⟨aid, haid, a, ha, haeq⟩
    · intro hinv b hb
      rw [hs] at hb
      dsimp only at hb
      cases List.mem_append.mp hb with
      | inl hold =>
        obtain ⟨a', ha', haid'⟩ := hinv b hold
        exact ⟨a', by rw [hs]; exact ha', haid'⟩
      | inr hnew =>
        rw [List.mem_singleton] at hnew
        subst hnew
        exact ⟨a, by rw [hs]; exact ha, haeq⟩
  · intro s bid s' h hinv
    exact delete_book_preserves_refs h hinv
  · intro s aid s' h hinv
    exact delete_author_preserves_refs h hinv
  · intro s hn hinv b hb
    obtain ⟨a, ha, haid⟩ := hinv b hb
    refine ⟨a, ⟨ha, haid⟩, ?_⟩
    intro a' ha'
    exact key_inj_of_nodup Author.id hn ha'.1 ha (by rw [ha'.2, haid])

/-- C7 witness: deleting book 10 from the two-author two-book store keeps
every remaining book referencing an existing author. -/
theorem book_author_reference_invariant_witness :
    refsExist ⟨[⟨2, "B".toList, "1980-01-01".toList, none⟩],
               [⟨11, "222".toList, "T2".toList, 2001, none, 2⟩]⟩ :=
  book_author_reference_invariant.2.1
    ⟨[⟨1, "A".toList, "1990-01-01".toList, none⟩,
      ⟨2, "B".toList, "1980-01-01".toList, none⟩],
     [⟨10, "111".toList, "T1".toList, 2000, none, 1⟩,
      ⟨11, "222".toList, "T2".toList, 2001, none, 2⟩]⟩
    10
    ⟨[⟨2, "B".toList, "1980-01-01".toList, none⟩],
     [⟨11, "222".toList, "T2".toList, 2001, none, 2⟩]⟩
    rfl (by unfold refsExist; decide)

/-- C8.  Any sort key other than `author` (and `title` itself) produces
exactly the `title` ordering: the else-branch of the handler normalizes every
unrecognised key to `title`, a silent fallback with no error outcome. -/
theorem home_invalid_sort_falls_back (s : LibState) (q k : PyStr)
    (_hk1 : k ≠ "title".toList) (hk2 : k ≠ "author".toList) :
    home s q k = home s q "title".toList := by
  unfold home
  dsimp only
  rw [if_neg hk2, if_neg (show ¬ ("title".toList = "author".toList) by decide)]

/-- C8 witness: on the two-author two-book store, the sort key `price`
lists exactly what `title` lists. -/
theorem home_invalid_sort_falls_back_witness :
    home ⟨[⟨1, "A".toList, "1990-01-01".toList, none⟩,
           ⟨2, "B".toList, "1980-01-01".toList, none⟩],
          [⟨10, "111".toList, "T1".toList, 2000, none, 1⟩,
           ⟨11, "222".toList, "T2".toList, 2001, none, 2⟩]⟩
        "T".toList "price".toList
      = home ⟨[⟨1, "A".toList, "1990-01-01".toList, none⟩,
               ⟨2, "B".toList, "1980-01-01".toList, none⟩],
              [⟨10, "111".toList, "T1".toList, 2000, none, 1⟩,
               ⟨11, "222".toList, "T2".toList, 2001, none, 2⟩]⟩
          "T".toList "title".toList :=
  home_invalid_sort_falls_back
    ⟨[⟨1, "A".toList, "1990-01-01".toList, none⟩,
      ⟨2, "B".toList, "1980-01-01".toList, none⟩],
     [⟨10, "111".toList, "T1".toList, 2000, none, 1⟩,
      ⟨11, "222".toList, "T2".toList, 2001, none, 2⟩]⟩
    "T".toList "price".toList (by decide) (by decide)
